import Mathlib

/-!
Shallow embedding of `contrib/llvm/include/llvm/ADT/DenseSet.h`:
the `DenseSetImpl` adapter, its `DenseSet` and `SmallDenseSet` facades,
and the zero-size marker types `DenseSetEmpty` / `DenseSetPair`.

The underlying `DenseMap` / `SmallDenseMap` container is not part of the
sources; it is the external collaborator of the spec and is modelled here
from the spec's capability contract (§6): an associative container keyed
by `Key` with unit values, whose observable content is the sequence of
present keys. Iterators are modelled as indices into that sequence, with
the sequence length as the end sentinel. Hashing only routes lookups to
buckets and never changes observable results, so the model records the
hash functions of the `DenseMapInfo` contract but resolves lookups by the
equality predicate alone.
-/

namespace LlvmDenseSet

/-- Source `llvm::detail::DenseSetEmpty`: the zero-size payload type paired with
each key (DenseSet.h line 23). It has no fields. -/
structure DenseSetEmpty where

/-- Source `llvm::detail::DenseSetPair<KeyT>`: the map bucket type, holding only
the key; the empty payload is the (empty) base class
(DenseSet.h lines 27-35). -/
structure DenseSetPair (K : Type) where
  key : K

/-- Source `DenseSetPair::getFirst` (DenseSet.h line 31). -/
def DenseSetPair.getFirst {K : Type} (p : DenseSetPair K) : K := p.key

/-- Source `DenseSetPair::getSecond` (DenseSet.h line 33): returns the empty
base-class subobject. -/
def DenseSetPair.getSecond {K : Type} (_ : DenseSetPair K) : DenseSetEmpty := {}

/-- The `DenseMapInfo` "concept" for the stored key type: a hash function
and an equality predicate (spec §3, §6; DenseSet.h line 45). -/
structure DenseMapInfo (K : Type) where
  getHashValue : K → Nat
  isEqual : K → K → Bool

/-- The heterogeneous `DenseMapInfo` contract for an alternate lookup key
type: `getHashValue(LookupKeyT)` and `isEqual(LookupKeyT, KeyT)`
(DenseSet.h lines 153-155, spec §4.1). -/
structure DenseMapHetInfo (L K : Type) where
  getHashValue : L → Nat
  isEqual : L → K → Bool

/-- Modelled from the spec: the underlying `DenseMap` (external
collaborator, §6). Its observable state is the sequence of present keys,
each conceptually paired with a unit value; probing, tombstones and
capacity are out of scope (§1). -/
structure DenseMap (K : Type) where
  entries : List K

/-- Modelled from the spec: `Map.size` — the count of present entries. -/
def DenseMap.size {K : Type} (m : DenseMap K) : Nat := m.entries.length

/-- Modelled from the spec: `Map.empty`. -/
def DenseMap.emptyB {K : Type} (m : DenseMap K) : Bool := m.entries.isEmpty

/-- Modelled from the spec: `Map.count(key) -> {0,1}` — 1 if some present
key is equal (lookup key first, stored key second) to `k`, else 0. -/
def DenseMap.count {K : Type} (info : DenseMapInfo K) (m : DenseMap K) (k : K) : Nat :=
  if m.entries.any (fun e => info.isEqual k e) then 1 else 0

/-- Modelled from the spec: `Map.find(key) -> iterator|end` — the index of
the first equal present key, or `size` (the end sentinel) if absent. -/
def DenseMap.find {K : Type} (info : DenseMapInfo K) (m : DenseMap K) (k : K) : Nat :=
  m.entries.findIdx fun e => info.isEqual k e

/-- Modelled from the spec: `Map.find_as<L>(lookupKey) -> iterator|end` —
like `find` but matching via the heterogeneous contract. -/
def DenseMap.find_as {L K : Type} (hinfo : DenseMapHetInfo L K) (m : DenseMap K)
    (l : L) : Nat :=
  m.entries.findIdx fun e => hinfo.isEqual l e

/-- Modelled from the spec: `Map.try_emplace(key, value) ->
(iterator, insertedBool)` with no overwrite on an existing key: if an
equal key is present, return its iterator and `false` leaving the store
unchanged; otherwise append the key and return its iterator and `true`. -/
def DenseMap.try_emplace {K : Type} (info : DenseMapInfo K) (m : DenseMap K)
    (k : K) : (Nat × Bool) × DenseMap K :=
  let i := m.entries.findIdx fun e => info.isEqual k e
  if i < m.entries.length then ((i, false), m)
  else ((m.entries.length, true), ⟨m.entries ++ [k]⟩)

/-- Modelled from the spec: `Map.insert_as<L>(entry, lookupKey) ->
(iterator, insertedBool)` — presence is tested with `lookupKey` via the
heterogeneous contract; the entry's key is stored only if insertion
occurs. -/
def DenseMap.insert_as {L K : Type} (hinfo : DenseMapHetInfo L K) (m : DenseMap K)
    (k : K) (l : L) : (Nat × Bool) × DenseMap K :=
  let i := m.entries.findIdx fun e => hinfo.isEqual l e
  if i < m.entries.length then ((i, false), m)
  else ((m.entries.length, true), ⟨m.entries ++ [k]⟩)

/-- Modelled from the spec: `Map.erase(key) -> bool` — removes the entry
whose key is equal to `k` if present, reporting whether one was removed. -/
def DenseMap.erase {K : Type} (info : DenseMapInfo K) (m : DenseMap K)
    (k : K) : Bool × DenseMap K :=
  if m.entries.any (fun e => info.isEqual k e) then
    (true, ⟨m.entries.eraseP fun e => info.isEqual k e⟩)
  else (false, m)

/-- Modelled from the spec: `Map.clear` — removes all entries. -/
def DenseMap.clear {K : Type} (_ : DenseMap K) : DenseMap K := ⟨[]⟩

/-- Source `llvm::detail::DenseSetImpl` (DenseSet.h lines 46-196): the adapter
owning one map instance (`MapTy TheMap`, line 50). -/
structure DenseSetImpl (K : Type) where
  TheMap : DenseMap K

/-- Source `DenseSetImpl(unsigned InitialReserve = 0)` (DenseSet.h line 57):
construction with a capacity hint; the map starts with no entries.
Capacity itself is map-defined and not observable in this model. -/
def mkDenseSetImpl (K : Type) (_InitialReserve : Nat) : DenseSetImpl K := ⟨⟨[]⟩⟩

/-- Source `DenseSetImpl::empty` (DenseSet.h line 64): delegates to the map. -/
def DenseSetImpl.emptyB {K : Type} (s : DenseSetImpl K) : Bool := s.TheMap.emptyB

/-- Source `DenseSetImpl::size` (DenseSet.h line 65): delegates to the map. -/
def DenseSetImpl.size {K : Type} (s : DenseSetImpl K) : Nat := s.TheMap.size

/-- Source `DenseSetImpl::clear` (DenseSet.h lines 76-78): delegates to the map. -/
def DenseSetImpl.clear {K : Type} (s : DenseSetImpl K) : DenseSetImpl K :=
  ⟨s.TheMap.clear⟩

/-- Source `DenseSetImpl::count` (DenseSet.h lines 81-83): delegates to the map. -/
def DenseSetImpl.count {K : Type} (info : DenseMapInfo K) (s : DenseSetImpl K)
    (v : K) : Nat :=
  s.TheMap.count info v

/-- Source `DenseSetImpl::erase(const ValueT&)` (DenseSet.h lines 85-87):
delegates to the map; returns its boolean unchanged. -/
def DenseSetImpl.erase {K : Type} (info : DenseMapInfo K) (s : DenseSetImpl K)
    (v : K) : Bool × DenseSetImpl K :=
  let r := s.TheMap.erase info v
  (r.1, ⟨r.2⟩)

/-- Source `DenseSetImpl::find` (DenseSet.h lines 146-149): wraps the map's
iterator (here: its index) unchanged. -/
def DenseSetImpl.find {K : Type} (info : DenseMapInfo K) (s : DenseSetImpl K)
    (v : K) : Nat :=
  s.TheMap.find info v

/-- Source `DenseSetImpl::find_as` (DenseSet.h lines 156-163): wraps the map's
`find_as` iterator unchanged. -/
def DenseSetImpl.find_as {L K : Type} (hinfo : DenseMapHetInfo L K)
    (s : DenseSetImpl K) (l : L) : Nat :=
  s.TheMap.find_as hinfo l

/-- Source `DenseSetImpl::end` viewed through the iterator model: the end
sentinel index of the entry sequence. -/
def DenseSetImpl.endIdx {K : Type} (s : DenseSetImpl K) : Nat :=
  s.TheMap.entries.length

/-- Source `DenseSetImpl::insert` (DenseSet.h lines 168-176): delegates to
`try_emplace` with the empty payload. -/
def DenseSetImpl.insert {K : Type} (info : DenseMapInfo K) (s : DenseSetImpl K)
    (v : K) : (Nat × Bool) × DenseSetImpl K :=
  let r := s.TheMap.try_emplace info v
  (r.1, ⟨r.2⟩)

/-- Source `DenseSetImpl::insert_as` (DenseSet.h lines 180-188): delegates to the
map's `insert_as` with the `{V, DenseSetEmpty()}` entry. -/
def DenseSetImpl.insert_as {L K : Type} (hinfo : DenseMapHetInfo L K)
    (s : DenseSetImpl K) (v : K) (l : L) : (Nat × Bool) × DenseSetImpl K :=
  let r := s.TheMap.insert_as hinfo v l
  (r.1, ⟨r.2⟩)

/-- Range insertion `DenseSetImpl::insert(InputIt, InputIt)`
(DenseSet.h lines 191-195): inserts each element in sequence order. -/
def DenseSetImpl.insertMany {K : Type} (info : DenseMapInfo K) (s : DenseSetImpl K)
    (vs : List K) : DenseSetImpl K :=
  vs.foldl (fun t v => (t.insert info v).2) s

/-- Source `DenseSetImpl(std::initializer_list<ValueT> Elems)`
(DenseSet.h lines 59-62): constructs with a reserve hint of the sequence
length and range-inserts the sequence. -/
def DenseSetImpl.ofList {K : Type} (info : DenseMapInfo K) (vs : List K) :
    DenseSetImpl K :=
  (mkDenseSetImpl K vs.length).insertMany info vs

/-- The number of elements of `vs` that are not equal (lookup-key first)
to any element seen before them; `seen` accumulates the already-processed
elements. With `seen = []` this is the claim's "number of
distinct-by-equality values inserted". -/
def distinctCount {K : Type} (eq : K → K → Bool) : List K → List K → Nat
  | _, [] => 0
  | seen, v :: rest =>
    (if seen.any fun u => eq v u then 0 else 1) + distinctCount eq (v :: seen) rest

/-- Concrete key info for witnesses: natural-number keys with boolean
equality and identity hash. -/
def natInfo : DenseMapInfo Nat := ⟨fun a => a, fun a b => a == b⟩

/-- Invariant of reachable entry sequences: every entry fails the
equality test against every earlier entry (at-most-one-entry-per-key,
spec §3). -/
def entriesFresh {K : Type} (eq : K → K → Bool) (l : List K) : Prop :=
  l.Pairwise fun a b => eq b a = false

/-- A concrete sample set for witnesses, holding the keys 7 and 3. -/
def sampleSet : DenseSetImpl Nat := ⟨⟨[7, 3]⟩⟩

/-- Concrete heterogeneous key info for witnesses: natural-number lookup
keys against natural-number stored keys, with boolean equality and
identity hash (agreeing with `natInfo`). -/
def natHetInfo : DenseMapHetInfo Nat Nat := ⟨fun a => a, fun a b => a == b⟩

/-- Modelled from the spec: a fallible implementation of the map
capability contract (§6, §7). Each mutating operation either returns its
documented result together with the new map state, or signals the map's
own resource-failure value (e.g. allocation failure during growth); a
failure carries no new state, so the caller's map is untouched. -/
structure FallibleMapOps (K Err : Type) where
  try_emplaceE : DenseMap K → K → Except Err ((Nat × Bool) × DenseMap K)
  eraseE : DenseMap K → K → Except Err (Bool × DenseMap K)

/-- Adapter insertion over a fallible map, mirroring the delegation of
DenseSet.h lines 168-176: the map's outcome — result or failure — is
forwarded with only the iterator-projection rewrap, no translation. -/
def DenseSetImpl.insertE {K Err : Type} (M : FallibleMapOps K Err)
    (s : DenseSetImpl K) (v : K) : Except Err ((Nat × Bool) × DenseSetImpl K) :=
  (M.try_emplaceE s.TheMap v).map fun r => (r.1, ⟨r.2⟩)

/-- Adapter erase over a fallible map, mirroring the delegation of
DenseSet.h lines 85-87. -/
def DenseSetImpl.eraseE {K Err : Type} (M : FallibleMapOps K Err)
    (s : DenseSetImpl K) (v : K) : Except Err (Bool × DenseSetImpl K) :=
  (M.eraseE s.TheMap v).map fun r => (r.1, ⟨r.2⟩)

/-- Lifting of the never-failing map operations into the fallible
contract. -/
def pureMapOps {K : Type} (info : DenseMapInfo K) (Err : Type) :
    FallibleMapOps K Err :=
  ⟨fun m k => .ok (m.try_emplace info k), fun m k => .ok (m.erase info k)⟩

/-- A concrete map implementation whose mutating operations always fail,
for the C9 witness. -/
def failingMapOps : FallibleMapOps Nat Nat :=
  ⟨fun _ _ => .error 0, fun _ _ => .error 0⟩

/-- Modelled from the spec: `SmallDenseMap` with `InlineBuckets` inline
bucket slots (external collaborator, §4.3). The inline capacity changes
only the storage strategy, never observable content, so the observable
state is the same key sequence as the heap-backed map's. -/
structure SmallDenseMap (K : Type) (InlineBuckets : Nat) where
  entries : List K

/-- Source `llvm::SmallDenseSet` (DenseSet.h lines 218-232):
`DenseSetImpl` instantiated over a `SmallDenseMap` with `InlineBuckets`
inline buckets. -/
structure SmallDenseSet (K : Type) (InlineBuckets : Nat) where
  TheMap : SmallDenseMap K InlineBuckets

/-- Source default of `SmallDenseSet`'s `InlineBuckets` template
parameter: `unsigned InlineBuckets = 4` (DenseSet.h line 218). -/
def SmallDenseSet.defaultInlineBuckets : Nat := 4

/-- The inline-capacity facade as instantiated without an explicit
inline-capacity parameter, `SmallDenseSet<ValueT>`. -/
def SmallDenseSetDefault (K : Type) : Type :=
  SmallDenseSet K SmallDenseSet.defaultInlineBuckets

/-- Observable-content correspondence from the inline-capacity facade to
the heap-backed facade: the same present keys. -/
def SmallDenseSet.toDense {K : Type} {n : Nat} (s : SmallDenseSet K n) :
    DenseSetImpl K :=
  ⟨⟨s.TheMap.entries⟩⟩

/-- Source `SmallDenseSet`'s inherited `size` (DenseSet.h line 65 through
line 231's inherited constructors/members). -/
def SmallDenseSet.size {K : Type} {n : Nat} (s : SmallDenseSet K n) : Nat :=
  s.TheMap.entries.length

/-- Source `SmallDenseSet`'s inherited `count`. -/
def SmallDenseSet.count {K : Type} {n : Nat} (info : DenseMapInfo K)
    (s : SmallDenseSet K n) (v : K) : Nat :=
  if s.TheMap.entries.any (fun e => info.isEqual v e) then 1 else 0

/-- Source `SmallDenseSet`'s inherited `insert`: the adapter logic over
the small map's state. -/
def SmallDenseSet.insert {K : Type} {n : Nat} (info : DenseMapInfo K)
    (s : SmallDenseSet K n) (v : K) : (Nat × Bool) × SmallDenseSet K n :=
  let r := (DenseMap.mk s.TheMap.entries).try_emplace info v
  (r.1, ⟨⟨r.2.entries⟩⟩)

/-- Source `SmallDenseSet`'s inherited `erase`. -/
def SmallDenseSet.erase {K : Type} {n : Nat} (info : DenseMapInfo K)
    (s : SmallDenseSet K n) (v : K) : Bool × SmallDenseSet K n :=
  let r := (DenseMap.mk s.TheMap.entries).erase info v
  (r.1, ⟨⟨r.2.entries⟩⟩)

/-- Source `SmallDenseSet`'s inherited `find`. -/
def SmallDenseSet.find {K : Type} {n : Nat} (info : DenseMapInfo K)
    (s : SmallDenseSet K n) (v : K) : Nat :=
  (DenseMap.mk s.TheMap.entries).find info v

/-- A predicate holds somewhere in a list exactly when its first-match
index is a valid position. -/
theorem any_iff_findIdx_lt {K : Type} (p : K → Bool) (l : List K) :
    l.any p = true ↔ l.findIdx p < l.length := by
  constructor
  · intro h
    exact List.findIdx_lt_length_of_exists (List.any_eq_true.mp h)
  · intro h
    by_contra hc
    have hall : ∀ x ∈ l, p x = false := by
      intro x hx
      rcases Bool.eq_false_or_eq_true (p x) with ht | hf
      · exact absurd (List.any_eq_true.mpr ⟨x, hx, ht⟩) hc
      · exact hf
    have := List.findIdx_eq_length.mpr hall
    omega

/-- First-match search skips over a block in which the predicate is
everywhere false. -/
theorem findIdx_append_all_false {K : Type} (p : K → Bool) (l l2 : List K)
    (h : ∀ x ∈ l, p x = false) :
    (l ++ l2).findIdx p = l.length + l2.findIdx p := by
  induction l with
  | nil => simp
  | cons a t ih =>
    have ha : p a = false := h a (List.mem_cons_self a t)
    have ht : ∀ x ∈ t, p x = false := fun x hx => h x (List.mem_cons_of_mem a hx)
    simp [List.findIdx_cons, ha, ih ht]
    omega

/-- C1: if a key equal to `v` is already present, `insert v` returns
`inserted = false` with the existing entry's iterator (the one `find`
returns) and leaves the store unchanged; and `insert v` followed by
`insert v` has the second call return `inserted = false` with an iterator
equal to the first call's iterator, leaving the state and `size`
unchanged. -/
theorem DenseSetImpl.insert_duplicate_spec {K : Type} (info : DenseMapInfo K)
    (s : DenseSetImpl K) (v : K) (hrefl : info.isEqual v v = true) :
    (s.TheMap.entries.any (fun e => info.isEqual v e) = true →
      (s.insert info v).1.2 = false ∧ (s.insert info v).1.1 = s.find info v ∧
        (s.insert info v).2 = s) ∧
    (((s.insert info v).2.insert info v).1.2 = false ∧
      ((s.insert info v).2.insert info v).1.1 = (s.insert info v).1.1 ∧
      ((s.insert info v).2.insert info v).2 = (s.insert info v).2 ∧
      ((s.insert info v).2.insert info v).2.size = (s.insert info v).2.size) := by
  constructor
  · intro hany
    have hlt : s.TheMap.entries.findIdx (fun e => info.isEqual v e) <
        s.TheMap.entries.length :=
      (any_iff_findIdx_lt _ _).mp hany
    simp [DenseSetImpl.insert, DenseMap.try_emplace, DenseSetImpl.find,
      DenseMap.find, hlt]
  · by_cases hlt : s.TheMap.entries.findIdx (fun e => info.isEqual v e) <
        s.TheMap.entries.length
    · simp [DenseSetImpl.insert, DenseMap.try_emplace, hlt, DenseSetImpl.size,
        DenseMap.size]
    · have hall : ∀ x ∈ s.TheMap.entries, info.isEqual v x = false := by
        have hle := @List.findIdx_le_length K (fun e => info.isEqual v e)
          s.TheMap.entries
        have heq : s.TheMap.entries.findIdx (fun e => info.isEqual v e) =
            s.TheMap.entries.length := by omega
        exact List.findIdx_eq_length.mp heq
      have hidx : (s.TheMap.entries ++ [v]).findIdx (fun e => info.isEqual v e) =
          s.TheMap.entries.length := by
        rw [findIdx_append_all_false _ _ _ hall]
        simp [List.findIdx_cons, hrefl]
      simp [DenseSetImpl.insert, DenseMap.try_emplace, hlt, hidx,
        DenseSetImpl.size, DenseMap.size]

/-- Insertion of an already-present key (per the lookup predicate) leaves
the set unchanged. -/
theorem insert_of_present {K : Type} (info : DenseMapInfo K) (s : DenseSetImpl K)
    (v : K) (h : s.TheMap.entries.any (fun e => info.isEqual v e) = true) :
    (s.insert info v).2 = s := by
  have hlt := (any_iff_findIdx_lt _ _).mp h
  simp [DenseSetImpl.insert, DenseMap.try_emplace, hlt]

/-- Insertion of an absent key (per the lookup predicate) appends it to
the entry sequence and reports `inserted = true`. -/
theorem insert_of_absent {K : Type} (info : DenseMapInfo K) (s : DenseSetImpl K)
    (v : K) (h : s.TheMap.entries.any (fun e => info.isEqual v e) = false) :
    (s.insert info v).1.2 = true ∧
      (s.insert info v).2.TheMap.entries = s.TheMap.entries ++ [v] := by
  have hnlt : ¬ s.TheMap.entries.findIdx (fun e => info.isEqual v e) <
      s.TheMap.entries.length := by
    intro hlt
    rw [(any_iff_findIdx_lt _ _).mpr hlt] at h
    simp at h
  constructor <;> simp [DenseSetImpl.insert, DenseMap.try_emplace, hnlt]

/-- After a range insertion, a lookup key matches some entry exactly when
it matched an original entry or matches one of the inserted values
(equality transitivity is required to absorb matches that were themselves
deduplicated away). -/
theorem insertMany_any {K : Type} (info : DenseMapInfo K)
    (htrans : ∀ a b c, info.isEqual a b = true → info.isEqual b c = true →
      info.isEqual a c = true) (vs : List K) :
    ∀ (s : DenseSetImpl K) (w : K),
      (s.insertMany info vs).TheMap.entries.any (fun e => info.isEqual w e) =
        (s.TheMap.entries.any (fun e => info.isEqual w e) ||
          vs.any fun u => info.isEqual w u) := by
  induction vs with
  | nil => intro s w; simp [DenseSetImpl.insertMany]
  | cons v rest ih =>
    intro s w
    have hstep : s.insertMany info (v :: rest) =
        ((s.insert info v).2).insertMany info rest := rfl
    rw [hstep, ih]
    by_cases hany : s.TheMap.entries.any (fun e => info.isEqual v e) = true
    · rw [insert_of_present info s v hany]
      by_cases hwv : info.isEqual w v = true
      · rcases List.any_eq_true.mp hany with ⟨e, he, heq⟩
        have hwe : s.TheMap.entries.any (fun e => info.isEqual w e) = true :=
          List.any_eq_true.mpr ⟨e, he, htrans w v e hwv heq⟩
        simp [hwe]
      · rw [Bool.not_eq_true] at hwv
        simp [hwv]
    · rw [Bool.not_eq_true] at hany
      rcases insert_of_absent info s v hany with ⟨-, hent⟩
      rw [hent, List.any_append]
      simp [Bool.or_assoc]

/-- Sizes after a range insertion: starting from a state whose matches
agree with an accumulator of already-seen values, the size grows by
exactly the number of fresh (distinct-by-equality) values. -/
theorem insertMany_size {K : Type} (info : DenseMapInfo K)
    (htrans : ∀ a b c, info.isEqual a b = true → info.isEqual b c = true →
      info.isEqual a c = true) (vs : List K) :
    ∀ (s : DenseSetImpl K) (seen : List K),
      (∀ w, s.TheMap.entries.any (fun e => info.isEqual w e) =
        seen.any fun u => info.isEqual w u) →
      (s.insertMany info vs).size = s.size + distinctCount info.isEqual seen vs := by
  induction vs with
  | nil => intro s seen _; simp [DenseSetImpl.insertMany, distinctCount]
  | cons v rest ih =>
    intro s seen hinv
    have hstep : s.insertMany info (v :: rest) =
        ((s.insert info v).2).insertMany info rest := rfl
    rw [hstep]
    by_cases hany : s.TheMap.entries.any (fun e => info.isEqual v e) = true
    · rw [insert_of_present info s v hany]
      have hseen : (seen.any fun u => info.isEqual v u) = true := by
        rw [← hinv v]; exact hany
      have hinv2 : ∀ w, s.TheMap.entries.any (fun e => info.isEqual w e) =
          (v :: seen).any fun u => info.isEqual w u := by
        intro w
        rw [List.any_cons]
        by_cases hwv : info.isEqual w v = true
        · rcases List.any_eq_true.mp hany with ⟨e, he, heq⟩
          have hwe : s.TheMap.entries.any (fun e => info.isEqual w e) = true :=
            List.any_eq_true.mpr ⟨e, he, htrans w v e hwv heq⟩
          rw [hwe, hwv, Bool.true_or]
        · rw [Bool.not_eq_true] at hwv
          rw [hwv, Bool.false_or, hinv w]
      rw [ih s (v :: seen) hinv2]
      simp [distinctCount, hseen]
    · rw [Bool.not_eq_true] at hany
      have hseen : (seen.any fun u => info.isEqual v u) = false := by
        rw [← hinv v]; exact hany
      rcases insert_of_absent info s v hany with ⟨-, hent⟩
      have hinv2 : ∀ w, ((s.insert info v).2).TheMap.entries.any
          (fun e => info.isEqual w e) = (v :: seen).any fun u => info.isEqual w u := by
        intro w
        rw [hent, List.any_append, List.any_cons, hinv w]
        simp [Bool.or_comm]
      rw [ih _ (v :: seen) hinv2]
      have hsz : ((s.insert info v).2).size = s.size + 1 := by
        simp [DenseSetImpl.size, DenseMap.size, hent]
      rw [hsz]
      simp [distinctCount, hseen]
      omega

/-- C2: starting from an empty set, after any sequence of insertions
`size()` equals the number of distinct-by-equality values inserted
(each value counts only if it is not equal to any earlier value in the
sequence); and `size()` always equals the underlying map's count. -/
theorem DenseSetImpl.size_distinct_spec {K : Type} (info : DenseMapInfo K)
    (vs : List K)
    (htrans : ∀ a b c, info.isEqual a b = true → info.isEqual b c = true →
      info.isEqual a c = true) :
    ((mkDenseSetImpl K 0).insertMany info vs).size =
      distinctCount info.isEqual [] vs ∧
    ∀ s : DenseSetImpl K, s.size = s.TheMap.size := by
  constructor
  · have h := insertMany_size info htrans vs (mkDenseSetImpl K 0) []
      (by intro w; simp [mkDenseSetImpl])
    simpa [DenseSetImpl.size, DenseMap.size, mkDenseSetImpl] using h
  · intro s; rfl

/-- Boolean equality on naturals is reflexive, pointwise for `natInfo`. -/
theorem natInfo_refl (a : Nat) : natInfo.isEqual a a = true := by
  simp [natInfo]

/-- Boolean equality on naturals is symmetric, pointwise for `natInfo`. -/
theorem natInfo_symm (a b : Nat) (h : natInfo.isEqual a b = true) :
    natInfo.isEqual b a = true := by
  have hab : a = b := by simpa [natInfo] using h
  simp [natInfo, hab]

/-- Boolean equality on naturals is transitive, pointwise for `natInfo`. -/
theorem natInfo_trans (a b c : Nat) (h1 : natInfo.isEqual a b = true)
    (h2 : natInfo.isEqual b c = true) : natInfo.isEqual a c = true := by
  have hab : a = b := by simpa [natInfo] using h1
  have hbc : b = c := by simpa [natInfo] using h2
  simp [natInfo, hab, hbc]

/-- A single insertion preserves the freshness invariant. -/
theorem insert_preserves_fresh {K : Type} (info : DenseMapInfo K)
    (s : DenseSetImpl K) (v : K)
    (h : entriesFresh info.isEqual s.TheMap.entries) :
    entriesFresh info.isEqual ((s.insert info v).2).TheMap.entries := by
  by_cases hany : s.TheMap.entries.any (fun e => info.isEqual v e) = true
  · rw [insert_of_present info s v hany]; exact h
  · rw [Bool.not_eq_true] at hany
    rcases insert_of_absent info s v hany with ⟨-, hent⟩
    rw [hent]
    rw [entriesFresh, List.pairwise_append]
    refine ⟨h, List.pairwise_singleton _ _, ?_⟩
    intro a ha b hb
    rw [List.mem_singleton] at hb
    subst hb
    simpa using (List.any_eq_false.mp hany) a ha

/-- A range insertion preserves the freshness invariant. -/
theorem insertMany_preserves_fresh {K : Type} (info : DenseMapInfo K)
    (vs : List K) : ∀ (s : DenseSetImpl K),
    entriesFresh info.isEqual s.TheMap.entries →
    entriesFresh info.isEqual ((s.insertMany info vs)).TheMap.entries := by
  induction vs with
  | nil => intro s h; exact h
  | cons v rest ih =>
    intro s h
    exact ih _ (insert_preserves_fresh info s v h)

/-- On a fresh entry sequence, removing the first match of a lookup key
removes the only match: no entry matching the key remains. -/
theorem eraseP_no_match_left {K : Type} (eq : K → K → Bool)
    (hsymm : ∀ a b, eq a b = true → eq b a = true)
    (htrans : ∀ a b c, eq a b = true → eq b c = true → eq a c = true)
    (v : K) : ∀ l : List K, entriesFresh eq l →
    (l.eraseP fun e => eq v e).any (fun e => eq v e) = false := by
  intro l hl
  induction l with
  | nil => simp
  | cons a t ih =>
    rcases List.pairwise_cons.mp hl with ⟨ha, ht⟩
    by_cases hva : eq v a = true
    · rw [List.eraseP_cons, hva, cond_true]
      rw [List.any_eq_false]
      intro b hb hvb
      have hbv : eq b v = true := hsymm v b hvb
      have hba : eq b a = true := htrans b v a hbv hva
      rw [ha b hb] at hba
      simp at hba
    · rw [Bool.not_eq_true] at hva
      rw [List.eraseP_cons, hva, cond_false, List.any_cons, hva, Bool.false_or]
      exact ih ht

/-- After inserting `v`, some entry matches `v` (given reflexivity of the
equality predicate at `v`). -/
theorem insert_makes_present {K : Type} (info : DenseMapInfo K)
    (s : DenseSetImpl K) (v : K) (hrefl : info.isEqual v v = true) :
    ((s.insert info v).2).TheMap.entries.any (fun e => info.isEqual v e) = true := by
  by_cases hany : s.TheMap.entries.any (fun e => info.isEqual v e) = true
  · rw [insert_of_present info s v hany]; exact hany
  · rw [Bool.not_eq_true] at hany
    rcases insert_of_absent info s v hany with ⟨-, hent⟩
    rw [hent, List.any_append, List.any_cons]
    simp [hrefl]

/-- C3: on any set, `erase(v)` returns true exactly when an entry equal
to `v` is present (count 1), and returns false leaving the set unchanged
otherwise; and on a set reachable by insertions from empty, after
`insert(v)` the call `erase(v)` returns true, `count(v)` becomes 0, and a
second `erase(v)` returns false. -/
theorem DenseSetImpl.erase_spec {K : Type} (info : DenseMapInfo K)
    (vs : List K) (v : K)
    (hrefl : ∀ a, info.isEqual a a = true)
    (hsymm : ∀ a b, info.isEqual a b = true → info.isEqual b a = true)
    (htrans : ∀ a b c, info.isEqual a b = true → info.isEqual b c = true →
      info.isEqual a c = true) :
    (∀ (t : DenseSetImpl K) (w : K),
      ((t.erase info w).1 = true ↔ t.count info w = 1) ∧
      ((t.erase info w).1 = false → (t.erase info w).2 = t)) ∧
    ((((((mkDenseSetImpl K 0).insertMany info vs).insert info v).2).erase
        info v).1 = true ∧
      ((((((mkDenseSetImpl K 0).insertMany info vs).insert info v).2).erase
        info v).2).count info v = 0 ∧
      (((((((mkDenseSetImpl K 0).insertMany info vs).insert info v).2).erase
        info v).2).erase info v).1 = false) := by
  constructor
  · intro t w
    constructor
    · by_cases hany : t.TheMap.entries.any (fun e => info.isEqual w e) = true
      · simp [DenseSetImpl.erase, DenseMap.erase, DenseSetImpl.count,
          DenseMap.count, hany]
      · rw [Bool.not_eq_true] at hany
        simp [DenseSetImpl.erase, DenseMap.erase, DenseSetImpl.count,
          DenseMap.count, hany]
    · intro hfalse
      by_cases hany : t.TheMap.entries.any (fun e => info.isEqual w e) = true
      · simp [DenseSetImpl.erase, DenseMap.erase, hany] at hfalse
      · rw [Bool.not_eq_true] at hany
        simp [DenseSetImpl.erase, DenseMap.erase, hany]
  · have hfresh0 : entriesFresh info.isEqual
        ((mkDenseSetImpl K 0) : DenseSetImpl K).TheMap.entries :=
      List.Pairwise.nil
    have hfresh1 := insertMany_preserves_fresh info vs _ hfresh0
    have hfresh2 := insert_preserves_fresh info _ v hfresh1
    have hpres := insert_makes_present info
      ((mkDenseSetImpl K 0).insertMany info vs) v (hrefl v)
    have hafter := eraseP_no_match_left info.isEqual hsymm htrans v _ hfresh2
    refine ⟨?_, ?_, ?_⟩
    · simp [DenseSetImpl.erase, DenseMap.erase, hpres]
    · simp [DenseSetImpl.erase, DenseMap.erase, DenseSetImpl.count,
        DenseMap.count, hpres, hafter]
    · simp [DenseSetImpl.erase, DenseMap.erase, hpres, hafter]

/-- Witness for C3 at concrete input: on the set built from 1,2 then
inserting 2, erasing 2 succeeds. -/
theorem DenseSetImpl.erase_spec_witness :
    (((((mkDenseSetImpl Nat 0).insertMany natInfo [1, 2]).insert natInfo
        2).2).erase natInfo 2).1 = true :=
  (DenseSetImpl.erase_spec natInfo [1, 2] 2 natInfo_refl natInfo_symm
    natInfo_trans).2.1

/-- Witness for C2 at concrete input: the sequence 1,2,2,3 has 3 distinct
values and the set built from it has size 3. -/
theorem DenseSetImpl.size_distinct_spec_witness :
    distinctCount natInfo.isEqual [] [1, 2, 2, 3] = 3 ∧
      ((mkDenseSetImpl Nat 0).insertMany natInfo [1, 2, 2, 3]).size =
        distinctCount natInfo.isEqual [] [1, 2, 2, 3] :=
  ⟨by decide, (DenseSetImpl.size_distinct_spec natInfo [1, 2, 2, 3] natInfo_trans).1⟩

/-- Witness for C1 at concrete input: equality on `Nat` is reflexive at 3,
and a second insertion of 3 reports `inserted = false`. -/
theorem DenseSetImpl.insert_duplicate_spec_witness :
    natInfo.isEqual 3 3 = true ∧
      ((sampleSet.insert natInfo 3).2.insert natInfo 3).1.2 = false :=
  ⟨by decide, (DenseSetImpl.insert_duplicate_spec natInfo sampleSet 3 (by decide)).2.1⟩

/-- C4: in `insert_as(value, lookupKey)`, presence is decided by the
lookup key through the heterogeneous contract: if some stored key matches
the lookup key, the call returns `inserted = false` with the existing
entry's iterator (the one `find_as` returns) and the stored contents are
unchanged — the value is not materialized into storage; otherwise the
value is stored and the call returns `inserted = true`. -/
theorem DenseSetImpl.insert_as_spec {L K : Type} (hinfo : DenseMapHetInfo L K)
    (s : DenseSetImpl K) (v : K) (l : L) :
    (s.TheMap.entries.any (fun e => hinfo.isEqual l e) = true →
      (s.insert_as hinfo v l).1.2 = false ∧
      (s.insert_as hinfo v l).2 = s ∧
      (s.insert_as hinfo v l).1.1 = s.find_as hinfo l) ∧
    (s.TheMap.entries.any (fun e => hinfo.isEqual l e) = false →
      (s.insert_as hinfo v l).1.2 = true ∧
      (s.insert_as hinfo v l).2.TheMap.entries = s.TheMap.entries ++ [v]) := by
  constructor
  · intro hany
    have hlt := (any_iff_findIdx_lt _ _).mp hany
    refine ⟨?_, ?_, ?_⟩ <;>
      simp [DenseSetImpl.insert_as, DenseMap.insert_as, DenseSetImpl.find_as,
        DenseMap.find_as, hlt]
  · intro hany
    have hnlt : ¬ s.TheMap.entries.findIdx (fun e => hinfo.isEqual l e) <
        s.TheMap.entries.length := by
      intro hlt
      rw [(any_iff_findIdx_lt _ _).mpr hlt] at hany
      simp at hany
    constructor <;> simp [DenseSetImpl.insert_as, DenseMap.insert_as, hnlt]

/-- Witness for C4 at concrete input: key 3 is present in the sample set
by lookup key 3, and `insert_as` of 9 under lookup key 3 leaves the set
unchanged. -/
theorem DenseSetImpl.insert_as_spec_witness :
    sampleSet.TheMap.entries.any (fun e => natHetInfo.isEqual 3 e) = true ∧
      (sampleSet.insert_as natHetInfo 9 3).2 = sampleSet :=
  ⟨by decide,
    ((DenseSetImpl.insert_as_spec natHetInfo sampleSet 9 3).1 (by decide)).2.1⟩

/-- C5: when a lookup key and a canonical stored-type key are equal under
the heterogeneous contract — their hash values agree and the
heterogeneous equality test of the lookup key agrees pointwise with the
canonical key's equality test — `find_as(lookupKey)` returns the same
entry as `find(canonicalKey)`, and in particular `find_as` returns the
end sentinel exactly when `find` does. -/
theorem DenseSetImpl.find_as_agrees_find {L K : Type} (info : DenseMapInfo K)
    (hinfo : DenseMapHetInfo L K) (s : DenseSetImpl K) (l : L) (c : K)
    (hhash : hinfo.getHashValue l = info.getHashValue c)
    (heq : ∀ e : K, hinfo.isEqual l e = info.isEqual c e) :
    s.find_as hinfo l = s.find info c ∧
      (s.find_as hinfo l = s.endIdx ↔ s.find info c = s.endIdx) := by
  have hfun : (fun e => hinfo.isEqual l e) = fun e => info.isEqual c e :=
    funext heq
  have h1 : s.find_as hinfo l = s.find info c := by
    simp only [DenseSetImpl.find_as, DenseMap.find_as, DenseSetImpl.find,
      DenseMap.find, hfun]
  exact ⟨h1, by rw [h1]⟩

/-- Witness for C5 at concrete input: lookup key 3 and canonical key 3
have agreeing hashes and pointwise-agreeing equality tests, and `find_as`
agrees with `find` on the sample set. -/
theorem DenseSetImpl.find_as_agrees_find_witness :
    natHetInfo.getHashValue 3 = natInfo.getHashValue 3 ∧
      sampleSet.find_as natHetInfo 3 = sampleSet.find natInfo 3 :=
  ⟨by decide,
    (DenseSetImpl.find_as_agrees_find natInfo natHetInfo sampleSet 3 3
      (by decide) (fun e => rfl)).1⟩

/-- C6: bulk construction from a sequence inserts each element in
sequence order (it is definitionally the range insertion over the
sequence, starting from an empty set with the sequence length as reserve
hint); any element equal to an earlier element of the sequence is a no-op
(the state before and after its insertion coincide); and the resulting
`size()` is the number of distinct-by-equality values in the sequence. -/
theorem DenseSetImpl.ofList_spec {K : Type} (info : DenseMapInfo K)
    (vs : List K)
    (htrans : ∀ a b c, info.isEqual a b = true → info.isEqual b c = true →
      info.isEqual a c = true) :
    DenseSetImpl.ofList info vs =
      (mkDenseSetImpl K vs.length).insertMany info vs ∧
    (∀ pre v post, vs = pre ++ v :: post →
      (pre.any fun u => info.isEqual v u) = true →
      (((mkDenseSetImpl K vs.length).insertMany info pre).insert info v).2 =
        (mkDenseSetImpl K vs.length).insertMany info pre) ∧
    (DenseSetImpl.ofList info vs).size = distinctCount info.isEqual [] vs := by
  refine ⟨rfl, ?_, ?_⟩
  · intro pre v post _ hpre
    apply insert_of_present
    rw [insertMany_any info htrans pre (mkDenseSetImpl K vs.length) v]
    simp [mkDenseSetImpl, hpre]
  · have h := insertMany_size info htrans vs (mkDenseSetImpl K vs.length) []
      (by intro w; simp [mkDenseSetImpl])
    simpa [DenseSetImpl.ofList, DenseSetImpl.size, DenseMap.size,
      mkDenseSetImpl] using h

/-- Witness for C6 at concrete input: constructing from 1,2,2,3 gives
size 3, the number of distinct values. -/
theorem DenseSetImpl.ofList_spec_witness :
    (DenseSetImpl.ofList natInfo [1, 2, 2, 3]).size =
      distinctCount natInfo.isEqual [] [1, 2, 2, 3] :=
  (DenseSetImpl.ofList_spec natInfo [1, 2, 2, 3] natInfo_trans).2.2

/-- C7: a stored Entry carries exactly the information of one Key: the
bucket type `DenseSetPair K` is in bijection with `K` (the bijection
being the bucket's own key projection `getFirst`), and the Unit payload
`DenseSetEmpty` is a subsingleton carrying no information — the shallow
rendering of the source's `static_assert(sizeof(value_type) ==
sizeof(ValueT))` and of the empty-base-class trick. -/
theorem DenseSetPair.entry_is_exactly_key (K : Type) :
    (∃ f : DenseSetPair K ≃ K, ∀ p, f p = p.getFirst) ∧
      Subsingleton DenseSetEmpty := by
  refine ⟨⟨⟨DenseSetPair.getFirst, fun k => ⟨k⟩, ?_, ?_⟩, fun p => rfl⟩, ?_⟩
  · intro p; rfl
  · intro k; rfl
  · exact ⟨fun a b => rfl⟩

/-- C8: after `clear()`, `empty()` is true and `size()` is 0, and the
cleared set is the same state as a freshly default-constructed set, so
every subsequent operation behaves exactly as on a fresh set (all
operations are functions of that state; insertion is spelled out). -/
theorem DenseSetImpl.clear_spec {K : Type} (s : DenseSetImpl K) :
    (s.clear).emptyB = true ∧ (s.clear).size = 0 ∧
      s.clear = mkDenseSetImpl K 0 ∧
      ∀ (info : DenseMapInfo K) (v : K),
        (s.clear).insert info v = (mkDenseSetImpl K 0).insert info v :=
  ⟨rfl, rfl, rfl, fun _ _ => rfl⟩

/-- C9: for every map implementation, the adapter's operations fail
exactly when the map's do, with the identical failure value (no wrapping
or translation and no adapter-introduced failure mode); on success they
return exactly the map's result; a failed call produces no new state, so
the set the caller holds — its observable contents — is as before the
operation; and over the never-failing map the fallible operations agree
with the plain ones. -/
theorem DenseSetImpl.failure_propagation {K Err : Type}
    (M : FallibleMapOps K Err) (s : DenseSetImpl K) (v : K) :
    (∀ e, s.insertE M v = .error e ↔ M.try_emplaceE s.TheMap v = .error e) ∧
    (∀ r m', M.try_emplaceE s.TheMap v = .ok (r, m') →
      s.insertE M v = .ok (r, ⟨m'⟩)) ∧
    (∀ e, s.eraseE M v = .error e ↔ M.eraseE s.TheMap v = .error e) ∧
    (∀ b m', M.eraseE s.TheMap v = .ok (b, m') →
      s.eraseE M v = .ok (b, ⟨m'⟩)) ∧
    (∀ info : DenseMapInfo K,
      s.insertE (pureMapOps info Err) v =
        .ok ((s.insert info v).1, (s.insert info v).2) ∧
      s.eraseE (pureMapOps info Err) v =
        .ok ((s.erase info v).1, (s.erase info v).2)) := by
  refine ⟨?_, ?_, ?_, ?_, ?_⟩
  · intro e
    cases h : M.try_emplaceE s.TheMap v <;>
      simp [DenseSetImpl.insertE, h, Except.map]
  · intro r m' h
    simp [DenseSetImpl.insertE, h, Except.map]
  · intro e
    cases h : M.eraseE s.TheMap v <;>
      simp [DenseSetImpl.eraseE, h, Except.map]
  · intro b m' h
    simp [DenseSetImpl.eraseE, h, Except.map]
  · intro info
    constructor <;>
      simp [DenseSetImpl.insertE, DenseSetImpl.eraseE, pureMapOps, Except.map,
        DenseSetImpl.insert, DenseSetImpl.erase]

/-- Witness for C9 at concrete input: over the always-failing map, the
adapter's insert reports exactly the map's failure value. -/
theorem DenseSetImpl.failure_propagation_witness :
    failingMapOps.try_emplaceE sampleSet.TheMap 3 = .error 0 ∧
      sampleSet.insertE failingMapOps 3 = .error 0 :=
  ⟨rfl,
    ((DenseSetImpl.failure_propagation failingMapOps sampleSet 3).1 0).mpr rfl⟩

/-- C10: instantiated without an explicit inline-capacity parameter, the
inline-capacity facade has 4 inline buckets; and with that default its
operations satisfy the same external contract as the heap-backed facade:
each operation's result and resulting observable contents coincide with
the heap-backed facade's on the corresponding state. -/
theorem SmallDenseSet.default_capacity_and_contract {K : Type}
    (info : DenseMapInfo K) (s : SmallDenseSetDefault K) (v : K) :
    SmallDenseSet.defaultInlineBuckets = 4 ∧
    SmallDenseSetDefault K = SmallDenseSet K 4 ∧
    (s.insert info v).1 = (s.toDense.insert info v).1 ∧
    (s.insert info v).2.toDense = (s.toDense.insert info v).2 ∧
    (s.erase info v).1 = (s.toDense.erase info v).1 ∧
    (s.erase info v).2.toDense = (s.toDense.erase info v).2 ∧
    s.size = s.toDense.size ∧
    s.count info v = s.toDense.count info v ∧
    s.find info v = s.toDense.find info v :=
  ⟨rfl, rfl, rfl, rfl, rfl, rfl, rfl, rfl, rfl⟩

end LlvmDenseSet

